import Mathlib

/-!
Shallow embedding of `atomiccreate` (src/atomiccreate/__init__.py), a small
Python library that creates files and symbolic links so that the final update
appears as an atomic file-system operation.

The embedding models the file system as an association list of path/entry
pairs plus a list of existing directories.  Paths are kept pre-split into a
directory part and a base name, mirroring the source's pervasive use of
`os.path.dirname`.  Every fallible OS primitive (`os.makedirs`, `os.symlink`,
`os.rename`/`os.replace`, `os.remove`, `os.chmod`, `open`,
`tempfile.mktemp` / `tempfile.NamedTemporaryFile`) is interpreted against the
modelled file-system state together with an environment that supplies the
outcomes the real OS is free to choose (injected failures, concurrent name
grabs, and the random temporary-name stream).  Python exceptions become an
explicit result type; the `with`-statement protocol and `try/except` control
flow of the source are mirrored branch by branch.
-/

namespace AtomicCreate

/-- `errno.EEXIST` (17). -/
def EEXIST : Nat := 17

/-- `errno.ENOENT` (2). -/
def ENOENT : Nat := 2

/-- A file-system path, pre-split into its `os.path.dirname` part and its
base name.  The full Python string would be `dir ++ "/" ++ base`. -/
structure Path where
  dir : String
  base : String
deriving DecidableEq, Repr

/-- A directory entry: a regular file (content as a list of bytes plus its
permission bits) or a symbolic link storing its target string. -/
inductive Entry where
  | file (content : List Nat) (perm : Nat)
  | symlink (target : String)
deriving DecidableEq, Repr

/-- Association-list lookup for directory entries. -/
def lookupE : List (Path × Entry) → Path → Option Entry
  | [], _ => none
  | (q, e) :: rest, p => if q = p then some e else lookupE rest p

/-- Association-list update (insert or overwrite). -/
def setE : List (Path × Entry) → Path → Entry → List (Path × Entry)
  | [], p, e => [(p, e)]
  | (q, e0) :: rest, p, e =>
    if q = p then (p, e) :: rest else (q, e0) :: setE rest p e

/-- Association-list removal. -/
def removeE : List (Path × Entry) → Path → List (Path × Entry)
  | [], _ => []
  | (q, e0) :: rest, p =>
    if q = p then removeE rest p else (q, e0) :: removeE rest p

/-- The modelled file system: the set of existing directories and the map
from paths to entries. -/
structure FS where
  dirs : List String
  entries : List (Path × Entry)
deriving DecidableEq, Repr

def FS.lookup (fs : FS) (p : Path) : Option Entry :=
  lookupE fs.entries p

/-- `os.path.exists` on an entry path. -/
def FS.existsPath (fs : FS) (p : Path) : Bool :=
  (fs.lookup p).isSome

def FS.set (fs : FS) (p : Path) (e : Entry) : FS :=
  { fs with entries := setE fs.entries p e }

def FS.removeEntry (fs : FS) (p : Path) : FS :=
  { fs with entries := removeE fs.entries p }

/-- POSIX `rename(a, b)`: move the entry at `a` onto `b`, replacing whatever
was there.  Renaming a path onto itself is a successful no-op. -/
def FS.rename (fs : FS) (a b : Path) : FS :=
  match fs.lookup a with
  | none => fs
  | some e => if a = b then fs else (fs.removeEntry a).set b e

/-- Python exceptions that the source can raise or observe. -/
inductive PyExn where
  | oserror (errno : Nat) (msg : String)
  | valueError (msg : String)
  | userError (tag : Nat)
deriving DecidableEq, Repr

/-- Result of running a piece of Python code: normal return or an escaping
exception. -/
inductive PyResult (α : Type) where
  | ok (a : α)
  | exn (e : PyExn)
deriving DecidableEq, Repr

/-- Whether a result is the `ValueError` raised by `smart_open.__init__` for
an impossible configuration. -/
def PyResult.isConfigError {α : Type} : PyResult α → Bool
  | PyResult.exn (PyExn.valueError _) => true
  | _ => false

/-! ## `atomic_symlink(src, dst)`

The loop bound is `max_tries = getattr(os, 'TMP_MAX', 10000)`; the `os`
module has no `TMP_MAX` attribute, so the bound is the literal default. -/

def TMP_MAX : Nat := 10000

/-- Outcome the environment chooses for one `os.symlink(src, tmp)` call on a
name that is free in the modelled file system: success, or an `OSError` with
the given errno (errno `EEXIST` models a concurrent process grabbing the name
between `mktemp` and `symlink`, which leaves our modelled state unchanged). -/
inductive SymOutcome where
  | ok
  | fail (errno : Nat)
deriving DecidableEq, Repr

/-- Environment for one `atomic_symlink` run: injected `os.makedirs` failure,
the stream of candidate base names produced by `tempfile.mktemp`'s random name
sequence, the outcome of each `os.symlink` call on a free name, and injected
failures for `os.rename` and for the cleanup `os.remove`. -/
structure SymEnv where
  mkdirFail : Option Nat
  names : List String
  outcomes : List SymOutcome
  renameFail : Option Nat
  removeFail : Option Nat
deriving Repr

/-- `tempfile.mktemp(dir=d)`: walk the candidate name stream and return the
first name that does not currently exist, together with the unconsumed rest of
the stream.  `none` models `mktemp` exhausting its internal retry bound and
raising `FileExistsError` (errno `EEXIST`). -/
def mktempScan (fs : FS) (d : String) : List String → Option (Path × List String)
  | [] => none
  | n :: rest =>
    if fs.existsPath ⟨d, n⟩ then mktempScan fs d rest else some (⟨d, n⟩, rest)

/-- Pop the next `os.symlink` outcome; an exhausted stream defaults to
success. -/
def popOutcome : List SymOutcome → SymOutcome × List SymOutcome
  | [] => (SymOutcome.ok, [])
  | o :: rest => (o, rest)

/-- State threaded through the creation loop of `atomic_symlink`: the file
system, the Python variable `tmp`, the remaining environment streams, the
injected `os.rename` outcome, and two ghost counters (`renameAttempts`,
`iters`) recording how many times `os.rename` was invoked and how many loop
iterations ran. -/
structure LoopSt where
  fs : FS
  tmp : Option Path
  names : List String
  outcomes : List SymOutcome
  renameFail : Option Nat
  renameAttempts : Nat
  iters : Nat
deriving Repr

/-- How the `for n in range(max_tries)` loop ends: `returned` (successful
`os.rename` followed by `return`), `fellThrough` (all iterations exhausted, so
control falls out of the loop and out of the `try` block), or `raised e`
(an exception escaped the loop body). -/
inductive LoopRes where
  | returned
  | fellThrough
  | raised (e : PyExn)
deriving DecidableEq, Repr

/-- The body of `for n in range(max_tries)` in `atomic_symlink`, one
constructor branch per control path of the source:

* `tmp = tempfile.mktemp(dir=dst_dir)` — if `mktemp` itself raises
  `FileExistsError` (errno `EEXIST`), the `except OSError` clause catches it
  and `continue`s, leaving `tmp` bound to its previous value;
* `os.symlink(src, tmp)` — on `OSError` with errno `EEXIST` the loop
  `continue`s (someone else grabbed the temporary name first); any other
  errno re-raises out of the loop;
* on success, `os.rename(tmp, dst)` then `return`; a failing rename raises
  out of the loop. -/
def symLoop (src : String) (dst : Path) : Nat → LoopSt → LoopRes × LoopSt
  | 0, st => (LoopRes.fellThrough, st)
  | Nat.succ fuel, st =>
    match mktempScan st.fs dst.dir st.names with
    | none =>
      symLoop src dst fuel { st with names := [], iters := st.iters + 1 }
    | some (t, rest) =>
      let (oc, ocRest) := popOutcome st.outcomes
      let st1 : LoopSt :=
        { st with tmp := some t, names := rest, outcomes := ocRest,
                  iters := st.iters + 1 }
      match oc with
      | SymOutcome.fail e =>
        if e = EEXIST then symLoop src dst fuel st1
        else (LoopRes.raised (PyExn.oserror e "symlink"), st1)
      | SymOutcome.ok =>
        let st2 : LoopSt := { st1 with fs := st1.fs.set t (Entry.symlink src) }
        match st2.renameFail with
        | some e =>
          (LoopRes.raised (PyExn.oserror e "rename"),
           { st2 with renameAttempts := st2.renameAttempts + 1 })
        | none =>
          (LoopRes.returned,
           { st2 with fs := st2.fs.rename t dst,
                      renameAttempts := st2.renameAttempts + 1 })

/-- Result record of a whole `atomic_symlink` run.  Besides the observable
outcome (`result`, final `fs`) it carries ghost instrumentation: the final
value of the Python variable `tmp`, the number of `os.rename` invocations, the
number of loop iterations, and the exception (if any) that was raised inside
the `try` block before the `except` clause ran. -/
structure SymRun where
  result : PyResult Unit
  fs : FS
  tmp : Option Path
  renameAttempts : Nat
  iters : Nat
  raisedInTry : Option PyExn
deriving Repr

/-- `atomic_symlink(src, dst)`.  Mirrors the source statement by statement:
`dst_dir = os.path.dirname(dst)`, `tmp = None`, `max_tries = 10000`; inside
the `try` block, `os.makedirs(dst_dir)` when the directory does not exist,
then the creation loop; the bare `except` clause removes `tmp` if it is set
and exists and re-raises (a failing `os.remove` there escapes instead); the
final `raise IOError(errno.EEXIST, 'No usable temporary file name found')`
stands *after* the `try/except`, so the cleanup never runs for it. -/
def atomicSymlink (src : String) (dst : Path) (env : SymEnv) (fs : FS) : SymRun :=
  let mk : PyResult FS :=
    if fs.dirs.contains dst.dir then PyResult.ok fs
    else
      match env.mkdirFail with
      | none => PyResult.ok { fs with dirs := dst.dir :: fs.dirs }
      | some e => PyResult.exn (PyExn.oserror e "makedirs")
  match mk with
  | PyResult.exn e =>
    { result := PyResult.exn e, fs := fs, tmp := none, renameAttempts := 0,
      iters := 0, raisedInTry := some e }
  | PyResult.ok fs1 =>
    let r := symLoop src dst TMP_MAX
      { fs := fs1, tmp := none, names := env.names, outcomes := env.outcomes,
        renameFail := env.renameFail, renameAttempts := 0, iters := 0 }
    match r with
    | (LoopRes.returned, st) =>
      { result := PyResult.ok (), fs := st.fs, tmp := st.tmp,
        renameAttempts := st.renameAttempts, iters := st.iters,
        raisedInTry := none }
    | (LoopRes.fellThrough, st) =>
      { result := PyResult.exn
          (PyExn.oserror EEXIST "No usable temporary file name found"),
        fs := st.fs, tmp := st.tmp, renameAttempts := st.renameAttempts,
        iters := st.iters, raisedInTry := none }
    | (LoopRes.raised e, st) =>
      match st.tmp with
      | none =>
        { result := PyResult.exn e, fs := st.fs, tmp := none,
          renameAttempts := st.renameAttempts, iters := st.iters,
          raisedInTry := some e }
      | some t =>
        if st.fs.existsPath t then
          match env.removeFail with
          | none =>
            { result := PyResult.exn e, fs := st.fs.removeEntry t,
              tmp := some t, renameAttempts := st.renameAttempts,
              iters := st.iters, raisedInTry := some e }
          | some e2 =>
            { result := PyResult.exn (PyExn.oserror e2 "remove"), fs := st.fs,
              tmp := some t, renameAttempts := st.renameAttempts,
              iters := st.iters, raisedInTry := some e }
        else
          { result := PyResult.exn e, fs := st.fs, tmp := some t,
            renameAttempts := st.renameAttempts, iters := st.iters,
            raisedInTry := some e }

/-! ## `smart_open`

The open mode is modelled as the list of characters of the Python mode
string; the source only ever tests membership of single characters. -/

/-- `'r' in mode or 'x' in mode or 'a' in mode or '+' in mode`
(`smart_open.__init__`: modes which rely on an existing file should not
change the name). -/
def cannotUseTemp (mode : List Char) : Bool :=
  mode.contains 'r' || mode.contains 'x' || mode.contains 'a' || mode.contains '+'

/-- `'w' in mode or 'x' in mode or 'a' in mode or '+' in mode`
(`smart_open.__enter__`: the directory is auto-created only for writing
modes). -/
def modeImpliesWrite (mode : List Char) : Bool :=
  mode.contains 'w' || mode.contains 'x' || mode.contains 'a' || mode.contains '+'

/-- `~current_umask & 0o666` computed on Python's arbitrary-precision signed
integers (`__init__`: no execute, read and write as umask allows).  The umask
is obtained by `os.umask(0)` immediately followed by `os.umask(current)`, a
read-and-restore with no file-system effect, so it enters the model as a
plain parameter. -/
def derivedChmod (umask : Nat) : Int :=
  Int.land (Int.lnot (umask : Int)) 0o666

/-- The state of a constructed `smart_open` object. -/
structure SmartOpen where
  filename : Path
  mode : List Char
  delete_temp_on_error : Bool
  chmod : Int
  file : Option Path
  use_temp : Bool
  temp_ext : String
deriving DecidableEq, Repr

/-- `smart_open.__init__(filename, mode='r', use_temp=None,
delete_temp_on_error=True, chmod=None, temp_ext='.tmp')`.  The constructor
touches no file-system state (its only process interaction is the umask
read-and-restore, passed in as `umask`); it validates the
`use_temp`/`mode` combination and raises `ValueError` when a temporary file
is requested together with a mode that forbids it. -/
def smartOpenInit (filename : Path) (mode : List Char) (use_temp : Option Bool)
    (delete_temp_on_error : Bool) (chmod : Option Int) (temp_ext : String)
    (umask : Nat) : PyResult SmartOpen :=
  let cannot := cannotUseTemp mode
  let chmodVal : Int :=
    match chmod with
    | none => derivedChmod umask
    | some c => c
  if use_temp = some true ∧ cannot = true then
    PyResult.exn (PyExn.valueError "cannot use temporary file with mode")
  else
    PyResult.ok
      { filename := filename, mode := mode,
        delete_temp_on_error := delete_temp_on_error, chmod := chmodVal,
        file := none,
        use_temp := match use_temp with
                    | none => !cannot
                    | some b => b,
        temp_ext := temp_ext }

/-- Environment for `smart_open.__enter__`: injected `os.makedirs` failure
and the stream of candidate base names used by
`tempfile.NamedTemporaryFile`. -/
structure EnterEnv where
  mkdirFail : Option Nat
  ntfNames : List String
deriving Repr

/-- `tempfile.NamedTemporaryFile(mode, suffix=ext, dir=d, delete=False)`
name choice: the first candidate name (with `ext` appended) that does not
already exist; creation is `O_EXCL`, so existing names are skipped and
retried internally. -/
def ntfScan (fs : FS) (d : String) (ext : String) : List String → Option Path
  | [] => none
  | n :: rest =>
    if fs.existsPath ⟨d, n ++ ext⟩ then ntfScan fs d ext rest
    else some ⟨d, n ++ ext⟩

/-- `open(filename, mode)` for the mode shapes the source can pass: `'x'`
fails with `EEXIST` on an existing path, `'w'` truncates or creates, `'a'`
creates if missing, plain `'r'` requires an existing regular file.  Newly
created files get permission `0o666` masked by the umask.  Opening through a
symlink entry is not modelled (all `smart_open` runs in this development are
over regular-file entries). -/
def openFile (fs : FS) (p : Path) (mode : List Char) (umask : Nat) : PyResult FS :=
  if mode.contains 'x' then
    if fs.existsPath p then PyResult.exn (PyExn.oserror EEXIST "open")
    else PyResult.ok (fs.set p (Entry.file [] (Nat.ldiff 0o666 umask)))
  else if mode.contains 'w' then
    match fs.lookup p with
    | some (Entry.file _ q) => PyResult.ok (fs.set p (Entry.file [] q))
    | some (Entry.symlink _) => PyResult.exn (PyExn.oserror ENOENT "open")
    | none => PyResult.ok (fs.set p (Entry.file [] (Nat.ldiff 0o666 umask)))
  else if mode.contains 'a' then
    match fs.lookup p with
    | some (Entry.file _ _) => PyResult.ok fs
    | some (Entry.symlink _) => PyResult.exn (PyExn.oserror ENOENT "open")
    | none => PyResult.ok (fs.set p (Entry.file [] (Nat.ldiff 0o666 umask)))
  else
    match fs.lookup p with
    | some (Entry.file _ _) => PyResult.ok fs
    | _ => PyResult.exn (PyExn.oserror ENOENT "open")

/-- `smart_open.__enter__`.  Creates the parent directory when it is missing
and the mode implies writing, then either opens a `NamedTemporaryFile` in
that directory (mode `use_temp`; the file is created empty with the
`0o600` permissions `mkstemp` uses) or opens `filename` directly.  Returns
the updated object (with `self.file` set to the handle's on-disk name) and
the file system; an exception from `__enter__` skips body and `__exit__`
per the `with`-statement protocol. -/
def smartOpenEnter (s : SmartOpen) (fs : FS) (env : EnterEnv) (umask : Nat) :
    PyResult SmartOpen × FS :=
  let d := s.filename.dir
  let mk : PyResult FS :=
    if d ≠ "" && !fs.dirs.contains d && modeImpliesWrite s.mode then
      match env.mkdirFail with
      | none => PyResult.ok { fs with dirs := d :: fs.dirs }
      | some e => PyResult.exn (PyExn.oserror e "makedirs")
    else PyResult.ok fs
  match mk with
  | PyResult.exn e => (PyResult.exn e, fs)
  | PyResult.ok fs1 =>
    if s.use_temp then
      match ntfScan fs1 d s.temp_ext env.ntfNames with
      | none => (PyResult.exn (PyExn.oserror EEXIST "NamedTemporaryFile"), fs1)
      | some t =>
        (PyResult.ok { s with file := some t },
         fs1.set t (Entry.file [] 0o600))
    else
      match openFile fs1 s.filename s.mode umask with
      | PyResult.exn e => (PyResult.exn e, fs1)
      | PyResult.ok fs2 => (PyResult.ok { s with file := some s.filename }, fs2)

/-- Environment for `smart_open.__exit__`: injected failures for `os.chmod`,
`os.replace`/`os.rename`, and `os.remove`. -/
structure ExitEnv where
  chmodFail : Option Nat
  renameFail : Option Nat
  removeFail : Option Nat
deriving Repr

/-- Ghost record of which finalization steps `__exit__` invoked. -/
structure ExitTrace where
  chmodAttempted : Bool
  renameAttempted : Bool
  removeAttempted : Bool
deriving DecidableEq, Repr

/-- `os.chmod(p, v)`: `ENOENT` on a missing path, otherwise the injected
outcome; on success the permission bits of a file entry become `v`. -/
def osChmod (fs : FS) (p : Path) (v : Int) (fail : Option Nat) : PyResult FS :=
  match fs.lookup p with
  | none => PyResult.exn (PyExn.oserror ENOENT "chmod")
  | some (Entry.file c _) =>
    match fail with
    | none => PyResult.ok (fs.set p (Entry.file c v.toNat))
    | some e => PyResult.exn (PyExn.oserror e "chmod")
  | some (Entry.symlink _) =>
    match fail with
    | none => PyResult.ok fs
    | some e => PyResult.exn (PyExn.oserror e "chmod")

/-- `smart_open.__exit__(exc_type, exc_value, traceback)` together with the
`with`-statement propagation rule (`__exit__` returns `None`, so a body
exception always propagates unless finalization raises first).  Branch by
branch from the source: nothing happens when no file was ever opened; on
error-free exit, `os.chmod` runs unless `self.chmod` is zero, then
`os.replace` runs when the on-disk name differs from `filename`; on an
error exit with `delete_temp_on_error`, `os.remove(self.file.name)` runs. -/
def smartOpenExit (s : SmartOpen) (exc : Option PyExn) (fs : FS) (env : ExitEnv) :
    PyResult Unit × FS × ExitTrace :=
  match s.file with
  | none =>
    ((match exc with
      | none => PyResult.ok ()
      | some e => PyResult.exn e), fs, ⟨false, false, false⟩)
  | some h =>
    match exc with
    | none =>
      let step1 : PyResult FS × Bool :=
        if s.chmod ≠ 0 then (osChmod fs h s.chmod env.chmodFail, true)
        else (PyResult.ok fs, false)
      match step1 with
      | (PyResult.exn e, ca) => (PyResult.exn e, fs, ⟨ca, false, false⟩)
      | (PyResult.ok fs1, ca) =>
        if h ≠ s.filename then
          match env.renameFail with
          | none => (PyResult.ok (), fs1.rename h s.filename, ⟨ca, true, false⟩)
          | some e => (PyResult.exn (PyExn.oserror e "replace"), fs1, ⟨ca, true, false⟩)
        else (PyResult.ok (), fs1, ⟨ca, false, false⟩)
    | some e0 =>
      if s.delete_temp_on_error then
        if fs.existsPath h then
          match env.removeFail with
          | none => (PyResult.exn e0, fs.removeEntry h, ⟨false, false, true⟩)
          | some e2 => (PyResult.exn (PyExn.oserror e2 "remove"), fs, ⟨false, false, true⟩)
        else (PyResult.exn (PyExn.oserror ENOENT "remove"), fs, ⟨false, false, true⟩)
      else (PyResult.exn e0, fs, ⟨false, false, false⟩)

/-- The `with`-body, abstracted as the bytes it writes through the handle
followed by its outcome (`none` = normal completion, `some e` = it raises
`e`). -/
structure Body where
  writes : List Nat
  exc : Option PyExn
deriving Repr

/-- Append the body's writes to the content of the entry under the handle. -/
def applyBody (fs : FS) (h : Path) (w : List Nat) : FS :=
  match fs.lookup h with
  | some (Entry.file c q) => fs.set h (Entry.file (c ++ w) q)
  | _ => fs

/-- Environment for a whole `with smart_open(...) as f:` run. -/
structure RunEnv where
  umask : Nat
  enter : EnterEnv
  body : Body
  exit : ExitEnv
deriving Repr

/-- Result record of a whole `with smart_open(...)` run: the outcome the
caller observes, the final file system, the handle's on-disk name (ghost)
and the `__exit__` step trace (ghost). -/
structure SORun where
  result : PyResult Unit
  fs : FS
  handle : Option Path
  trace : ExitTrace
deriving Repr

/-- `with smart_open(filename, mode, use_temp, delete_temp_on_error, chmod,
temp_ext) as f: <body>` — constructor, `__enter__`, body, `__exit__`,
composed by the `with`-statement protocol. -/
def runSmartOpen (filename : Path) (mode : List Char) (use_temp : Option Bool)
    (delete_temp_on_error : Bool) (chmod : Option Int) (temp_ext : String)
    (env : RunEnv) (fs : FS) : SORun :=
  match smartOpenInit filename mode use_temp delete_temp_on_error chmod
      temp_ext env.umask with
  | PyResult.exn e => ⟨PyResult.exn e, fs, none, ⟨false, false, false⟩⟩
  | PyResult.ok s =>
    match smartOpenEnter s fs env.enter env.umask with
    | (PyResult.exn e, fs1) => ⟨PyResult.exn e, fs1, none, ⟨false, false, false⟩⟩
    | (PyResult.ok s1, fs1) =>
      let fs2 :=
        match s1.file with
        | some hp => applyBody fs1 hp env.body.writes
        | none => fs1
      let r := smartOpenExit s1 env.body.exc fs2 env.exit
      ⟨r.1, r.2.1, s1.file, r.2.2⟩

/-! ## Association-list and scan lemmas -/

theorem lookupE_set_self (l : List (Path × Entry)) (p : Path) (e : Entry) :
    lookupE (setE l p e) p = some e := by
  induction l with
  | nil => simp [setE, lookupE]
  | cons a rest ih =>
    obtain ⟨q, e0⟩ := a
    by_cases h : q = p
    · simp [setE, h, lookupE]
    · simp [setE, h, lookupE, ih]

theorem lookupE_set_ne (l : List (Path × Entry)) (p r : Path) (e : Entry)
    (h : r ≠ p) : lookupE (setE l p e) r = lookupE l r := by
  have hpr : ¬p = r := fun hh => h hh.symm
  induction l with
  | nil => simp [setE, lookupE, hpr]
  | cons a rest ih =>
    obtain ⟨q, e0⟩ := a
    by_cases hq : q = p
    · subst hq
      simp [setE, lookupE, hpr]
    · simp only [setE, if_neg hq, lookupE, ih]

theorem lookupE_remove_self (l : List (Path × Entry)) (p : Path) :
    lookupE (removeE l p) p = none := by
  induction l with
  | nil => simp [removeE, lookupE]
  | cons a rest ih =>
    obtain ⟨q, e0⟩ := a
    by_cases h : q = p
    · simp [removeE, h, ih]
    · simp [removeE, h, lookupE, ih]

theorem lookupE_remove_ne (l : List (Path × Entry)) (p r : Path) (h : r ≠ p) :
    lookupE (removeE l p) r = lookupE l r := by
  have hpr : ¬p = r := fun hh => h hh.symm
  induction l with
  | nil => simp [removeE]
  | cons a rest ih =>
    obtain ⟨q, e0⟩ := a
    by_cases hq : q = p
    · subst hq
      simp [removeE, lookupE, hpr, ih]
    · simp only [removeE, if_neg hq, lookupE, ih]

theorem FS.lookup_set_self (fs : FS) (p : Path) (e : Entry) :
    (fs.set p e).lookup p = some e := lookupE_set_self fs.entries p e

theorem FS.lookup_set_ne (fs : FS) (p r : Path) (e : Entry) (h : r ≠ p) :
    (fs.set p e).lookup r = fs.lookup r := lookupE_set_ne fs.entries p r e h

theorem FS.lookup_remove_self (fs : FS) (p : Path) :
    (fs.removeEntry p).lookup p = none := lookupE_remove_self fs.entries p

theorem FS.lookup_remove_ne (fs : FS) (p r : Path) (h : r ≠ p) :
    (fs.removeEntry p).lookup r = fs.lookup r := lookupE_remove_ne fs.entries p r h

/-- `mktempScan` returns a path in the requested directory, whose name was
drawn from the candidate stream, and which does not exist in the file
system. -/
theorem mktempScan_spec (fs : FS) (d : String) :
    ∀ (l : List String) (t : Path) (rest : List String),
      mktempScan fs d l = some (t, rest) →
      t.dir = d ∧ fs.existsPath t = false := by
  intro l
  induction l with
  | nil => intro t rest h; simp [mktempScan] at h
  | cons n ns ih =>
    intro t rest h
    by_cases hx : fs.existsPath ⟨d, n⟩ = true
    · rw [mktempScan, if_pos hx] at h
      exact ih t rest h
    · rw [mktempScan, if_neg hx] at h
      obtain ⟨h1, _⟩ := Prod.mk.injEq .. ▸ (Option.some.injEq .. ▸ h)
      subst h1
      exact ⟨rfl, Bool.not_eq_true _ ▸ hx⟩

/-- `ntfScan` returns a path in the requested directory, whose base name is a
candidate with the suffix appended, and which does not exist. -/
theorem ntfScan_spec (fs : FS) (d : String) (ext : String) :
    ∀ (l : List String) (t : Path),
      ntfScan fs d ext l = some t →
      t.dir = d ∧ (∃ n, n ∈ l ∧ t.base = n ++ ext) ∧ fs.existsPath t = false := by
  intro l
  induction l with
  | nil => intro t h; simp [ntfScan] at h
  | cons n ns ih =>
    intro t h
    by_cases hx : fs.existsPath ⟨d, n ++ ext⟩ = true
    · rw [ntfScan, if_pos hx] at h
      obtain ⟨h1, h2, h3⟩ := ih t h
      exact ⟨h1, by obtain ⟨m, hm, hb⟩ := h2; exact ⟨m, List.mem_cons_of_mem _ hm, hb⟩, h3⟩
    · rw [ntfScan, if_neg hx] at h
      obtain h1 := Option.some.injEq .. ▸ h
      subst h1
      exact ⟨rfl, ⟨n, List.mem_cons_self .., rfl⟩, Bool.not_eq_true _ ▸ hx⟩

/-! ## Claim theorems -/

/-- The spec's description of the default permission mask, written from the
spec's words: bit `i` of the mask is set exactly when it is a read or write
bit of some class (a bit of `0o666`) that the umask does not remove, and no
execute bit (positions 0, 3, 6) is ever set. -/
def SpecPermission (umask m : Nat) : Prop :=
  (∀ i, m.testBit i = ((0o666 : Nat).testBit i && !umask.testBit i)) ∧
  m.testBit 0 = false ∧ m.testBit 3 = false ∧ m.testBit 6 = false

/-- Claim C9: when the permission parameter is unset, the permission mask
`smart_open` derives (`~umask & 0o666` on Python integers) equals read+write
for owner, group and other masked by the process umask, with no execute bit
in any class, for every umask value. -/
theorem derivedChmod_matches_spec (u : Nat) :
    0 ≤ derivedChmod u ∧ SpecPermission u (derivedChmod u).toNat := by
  have h0 : derivedChmod u = ((Nat.ldiff 0o666 u : Nat) : Int) := rfl
  have hexec : ∀ j, j = 0 ∨ j = 3 ∨ j = 6 → (0o666 : Nat).testBit j = false := by
    intro j hj
    rcases hj with h | h | h <;>
      (subst h; rw [Nat.testBit_to_div_mod]; decide)
  have htn : (derivedChmod u).toNat = Nat.ldiff 0o666 u := by
    rw [h0, Int.toNat_ofNat]
  refine ⟨by rw [h0]; exact Int.ofNat_nonneg _, ?_, ?_, ?_, ?_⟩
  · intro i
    rw [htn]
    exact Nat.testBit_ldiff 0o666 u i
  · rw [htn, Nat.testBit_ldiff, hexec 0 (Or.inl rfl), Bool.false_and]
  · rw [htn, Nat.testBit_ldiff, hexec 3 (Or.inr (Or.inl rfl)), Bool.false_and]
  · rw [htn, Nat.testBit_ldiff, hexec 6 (Or.inr (Or.inr rfl)), Bool.false_and]

/-- Claim C4: `smart_open.__init__` raises the configuration error exactly
when `use_temp` is explicitly true and the mode contains `'r'`, `'x'`, `'a'`
or `'+'`, and an unset `use_temp` defaults to the negation of that mode
check.  The constructor is a pure function of its arguments (its only
process interaction is the umask read-and-restore, which touches no file
system state), so the validation happens before any filesystem access. -/
theorem smartOpenInit_validation
    (filename : Path) (mode : List Char) (use_temp : Option Bool)
    (dtoe : Bool) (chmod : Option Int) (ext : String) (umask : Nat) :
    ((smartOpenInit filename mode use_temp dtoe chmod ext umask).isConfigError = true ↔
      (use_temp = some true ∧ cannotUseTemp mode = true)) ∧
    (use_temp = none →
      ∀ s, smartOpenInit filename mode use_temp dtoe chmod ext umask = PyResult.ok s →
        s.use_temp = !cannotUseTemp mode) := by
  constructor
  · unfold smartOpenInit
    by_cases h : use_temp = some true ∧ cannotUseTemp mode = true
    · rw [if_pos h]
      simp [PyResult.isConfigError, h]
    · rw [if_neg h]
      simp [PyResult.isConfigError, h]
  · intro hu s hs
    subst hu
    unfold smartOpenInit at hs
    rw [if_neg (by simp)] at hs
    obtain h1 := PyResult.ok.injEq .. ▸ hs
    subst h1
    rfl

/-- Witness for C4: with mode `'a'` and `use_temp=True` construction fails
with the configuration error; with mode `'w'` and `use_temp` unset the
default is `use_temp = true`. -/
theorem smartOpenInit_validation_witness :
    (smartOpenInit ⟨"d", "f"⟩ ['a'] (some true) true none ".tmp" 18).isConfigError = true ∧
    ∀ s, smartOpenInit ⟨"d", "f"⟩ ['w'] none true none ".tmp" 18 = PyResult.ok s →
      s.use_temp = !cannotUseTemp ['w'] :=
  ⟨(smartOpenInit_validation ⟨"d", "f"⟩ ['a'] (some true) true none ".tmp" 18).1.mpr
    ⟨rfl, by decide⟩,
   fun s hs =>
    (smartOpenInit_validation ⟨"d", "f"⟩ ['w'] none true none ".tmp" 18).2 rfl s hs⟩

/-- Claim C1 (code bug): with mode `'r'` (so `use_temp` is false and the
"temp file" is the destination itself), a body error with the default
`delete_temp_on_error=True` makes `__exit__` call
`os.remove(self.file.name)` on the destination: the destination file that
existed before the run is deleted.  The claim says the destination's prior
content is unchanged and the error-exit delete runs only when a temp file
was used; the code deletes `self.file.name` unconditionally. -/
theorem smartOpen_read_error_deletes_destination :
    ((⟨["d"], [(⟨"d", "f"⟩, Entry.file [7] 0o644)]⟩ : FS).lookup ⟨"d", "f"⟩ =
      some (Entry.file [7] 0o644)) ∧
    (runSmartOpen ⟨"d", "f"⟩ ['r'] none true none ".tmp"
        ⟨18, ⟨none, []⟩, ⟨[], some (PyExn.userError 0)⟩, ⟨none, none, none⟩⟩
        ⟨["d"], [(⟨"d", "f"⟩, Entry.file [7] 0o644)]⟩).result =
      PyResult.exn (PyExn.userError 0) ∧
    (runSmartOpen ⟨"d", "f"⟩ ['r'] none true none ".tmp"
        ⟨18, ⟨none, []⟩, ⟨[], some (PyExn.userError 0)⟩, ⟨none, none, none⟩⟩
        ⟨["d"], [(⟨"d", "f"⟩, Entry.file [7] 0o644)]⟩).fs.lookup ⟨"d", "f"⟩ =
      none := by
  decide

theorem FS.existsPath_set_self (fs : FS) (p : Path) (e : Entry) :
    (fs.set p e).existsPath p = true := by
  simp [FS.existsPath, FS.lookup_set_self]

theorem FS.existsPath_set_ne (fs : FS) (p r : Path) (e : Entry) (h : r ≠ p) :
    (fs.set p e).existsPath r = fs.existsPath r := by
  simp [FS.existsPath, FS.lookup_set_ne fs p r e h]

/-- Claim C3 (counterexample to the claim as stated): body succeeds, the
finalization `os.chmod` fails before the rename, `delete_temp_on_error` is
true — yet the temporary file is NOT removed: the error-exit delete is the
`elif` branch of `exc_type is None`, which never runs when the error comes
from finalization itself, so the temp file remains on disk. -/
theorem smartOpen_chmod_failure_temp_not_removed :
    (runSmartOpen ⟨"d", "f"⟩ ['w'] none true (some 0o644) ".tmp"
        ⟨18, ⟨none, ["t"]⟩, ⟨[1, 2], none⟩, ⟨some 13, none, none⟩⟩
        ⟨["d"], [(⟨"d", "f"⟩, Entry.file [9] 0o644)]⟩).result =
      PyResult.exn (PyExn.oserror 13 "chmod") ∧
    (runSmartOpen ⟨"d", "f"⟩ ['w'] none true (some 0o644) ".tmp"
        ⟨18, ⟨none, ["t"]⟩, ⟨[1, 2], none⟩, ⟨some 13, none, none⟩⟩
        ⟨["d"], [(⟨"d", "f"⟩, Entry.file [9] 0o644)]⟩).fs.existsPath
      ⟨"d", "t.tmp"⟩ = true := by
  decide

/-- Claim C3 (amended): for a write through `smart_open` with `use_temp`
true and `delete_temp_on_error` true in which the body succeeds but the
finalization chmod step fails before the rename, the destination path is
untouched and the error is propagated to the caller, but the temporary file
is left behind (not removed): the error-exit delete only runs for errors
raised by the body, not by the finalization step itself. -/
theorem smartOpen_chmod_failure_propagates
    (fs : FS) (d b n : String) (w : List Nat) (cv : Int) (e : Nat)
    (dtoe : Bool) (u : Nat) (mkF renF remF : Option Nat)
    (hd : fs.dirs.contains d = true)
    (hfree : fs.existsPath ⟨d, n ++ ".tmp"⟩ = false)
    (hne : (⟨d, n ++ ".tmp"⟩ : Path) ≠ ⟨d, b⟩)
    (hcv : cv ≠ 0) :
    (runSmartOpen ⟨d, b⟩ ['w'] none dtoe (some cv) ".tmp"
        ⟨u, ⟨mkF, [n]⟩, ⟨w, none⟩, ⟨some e, renF, remF⟩⟩ fs).result =
      PyResult.exn (PyExn.oserror e "chmod") ∧
    (runSmartOpen ⟨d, b⟩ ['w'] none dtoe (some cv) ".tmp"
        ⟨u, ⟨mkF, [n]⟩, ⟨w, none⟩, ⟨some e, renF, remF⟩⟩ fs).fs.lookup ⟨d, b⟩ =
      fs.lookup ⟨d, b⟩ ∧
    (runSmartOpen ⟨d, b⟩ ['w'] none dtoe (some cv) ".tmp"
        ⟨u, ⟨mkF, [n]⟩, ⟨w, none⟩, ⟨some e, renF, remF⟩⟩ fs).fs.existsPath
      ⟨d, n ++ ".tmp"⟩ = true := by
  have hd2 : d ∈ fs.dirs := by simpa using hd
  simp only [runSmartOpen, smartOpenInit, cannotUseTemp, smartOpenEnter,
    modeImpliesWrite, ntfScan, applyBody, smartOpenExit, osChmod]
  simp +decide [hd2, hfree, hcv, hne, Ne.symm hne, FS.lookup_set_self,
    FS.lookup_set_ne, FS.existsPath_set_self]

/-- Witness for the amended C3. -/
theorem smartOpen_chmod_failure_propagates_witness :
    (runSmartOpen ⟨"d", "f"⟩ ['w'] none true (some 1) ".tmp"
        ⟨18, ⟨none, ["t"]⟩, ⟨[1, 2], none⟩, ⟨some 13, none, none⟩⟩
        ⟨["d"], [(⟨"d", "f"⟩, Entry.file [9] 0o644)]⟩).result =
      PyResult.exn (PyExn.oserror 13 "chmod") ∧
    (runSmartOpen ⟨"d", "f"⟩ ['w'] none true (some 1) ".tmp"
        ⟨18, ⟨none, ["t"]⟩, ⟨[1, 2], none⟩, ⟨some 13, none, none⟩⟩
        ⟨["d"], [(⟨"d", "f"⟩, Entry.file [9] 0o644)]⟩).fs.lookup ⟨"d", "f"⟩ =
      (⟨["d"], [(⟨"d", "f"⟩, Entry.file [9] 0o644)]⟩ : FS).lookup ⟨"d", "f"⟩ ∧
    (runSmartOpen ⟨"d", "f"⟩ ['w'] none true (some 1) ".tmp"
        ⟨18, ⟨none, ["t"]⟩, ⟨[1, 2], none⟩, ⟨some 13, none, none⟩⟩
        ⟨["d"], [(⟨"d", "f"⟩, Entry.file [9] 0o644)]⟩).fs.existsPath
      ⟨"d", "t.tmp"⟩ = true :=
  smartOpen_chmod_failure_propagates
    ⟨["d"], [(⟨"d", "f"⟩, Entry.file [9] 0o644)]⟩ "d" "f" "t" [1, 2] 1 13
    true 18 none none none (by decide) (by decide) (by decide) (by decide)

theorem ldiff_self_eq_zero (n : Nat) : Nat.ldiff n n = 0 := by
  apply Nat.eq_of_testBit_eq
  intro i
  rw [Nat.testBit_ldiff]
  simp

/-- Claim C8 (counterexample to the claim as stated): the constructor is
called with the permission parameter unset (`chmod=None`) and umask
`0o666`, so the stored permission value is `~0o666 & 0o666 = 0`; on an
error-free exit the chmod step is nevertheless skipped (`if self.chmod:`
is false), although the caller did not explicitly supply zero — "unset"
and "explicitly zero" are NOT distinguished for this umask. -/
theorem smartOpen_unset_chmod_skipped_at_full_umask :
    smartOpenInit ⟨"d", "f"⟩ ['w'] none true none ".tmp" 0o666 =
      PyResult.ok
        { filename := ⟨"d", "f"⟩, mode := ['w'], delete_temp_on_error := true,
          chmod := derivedChmod 0o666, file := none, use_temp := true,
          temp_ext := ".tmp" } ∧
    derivedChmod 0o666 = 0 ∧
    (smartOpenExit
        { filename := ⟨"d", "f"⟩, mode := ['w'], delete_temp_on_error := true,
          chmod := derivedChmod 0o666, file := some ⟨"d", "t.tmp"⟩,
          use_temp := true, temp_ext := ".tmp" } none
        ⟨["d"], [(⟨"d", "t.tmp"⟩, Entry.file [1] 0o600)]⟩
        ⟨none, none, none⟩).2.2.chmodAttempted = false := by
  have hz : derivedChmod 0o666 = 0 := by
    rw [show derivedChmod 0o666 = ((Nat.ldiff 0o666 0o666 : Nat) : Int) from rfl,
      ldiff_self_eq_zero]
    rfl
  refine ⟨rfl, hz, ?_⟩
  simp [smartOpenExit, hz]

/-- Claim C8 (amended): on error-free scope exit the chmod step runs exactly
when the stored permission value is nonzero; the stored value is the
caller's explicit value when one was supplied and the umask-derived default
otherwise.  Hence the step is skipped not only for an explicitly supplied
zero but also when the derived default itself is zero (a umask masking all
read/write bits); for every umask with a nonzero derived default, "unset"
and "explicitly zero" are distinguished. -/
theorem smartOpen_chmod_skip_iff_zero
    (s : SmartOpen) (h : Path) (fs : FS) (env : ExitEnv)
    (filename : Path) (mode : List Char) (useT : Option Bool) (dtoe : Bool)
    (ext : String) (u : Nat) (c : Int) (s1 s2 : SmartOpen)
    (hf : s.file = some h)
    (h1 : smartOpenInit filename mode useT dtoe none ext u = PyResult.ok s1)
    (h2 : smartOpenInit filename mode useT dtoe (some c) ext u = PyResult.ok s2) :
    (smartOpenExit s none fs env).2.2.chmodAttempted = decide (s.chmod ≠ 0) ∧
    s1.chmod = derivedChmod u ∧ s2.chmod = c := by
  refine ⟨?_, ?_, ?_⟩
  · simp only [smartOpenExit, hf]
    by_cases hc : s.chmod = 0
    · by_cases hh : h = s.filename
      · simp [hc, hh]
      · rcases env.renameFail with _ | e2 <;> simp [hc, hh]
    · rcases hr : osChmod fs h s.chmod env.chmodFail with fs1 | e
      · by_cases hh : h = s.filename
        · simp [hc, hr, hh]
        · rcases env.renameFail with _ | e2 <;> simp [hc, hr, hh]
      · simp [hc, hr]
  · unfold smartOpenInit at h1
    by_cases hv : useT = some true ∧ cannotUseTemp mode = true
    · rw [if_pos hv] at h1; exact absurd h1 (by simp)
    · rw [if_neg hv] at h1
      obtain he := PyResult.ok.injEq .. ▸ h1
      subst he; rfl
  · unfold smartOpenInit at h2
    by_cases hv : useT = some true ∧ cannotUseTemp mode = true
    · rw [if_pos hv] at h2; exact absurd h2 (by simp)
    · rw [if_neg hv] at h2
      obtain he := PyResult.ok.injEq .. ▸ h2
      subst he; rfl

/-- Witness for the amended C8. -/
theorem smartOpen_chmod_skip_iff_zero_witness :
    (smartOpenExit
        { filename := ⟨"d", "f"⟩, mode := ['w'], delete_temp_on_error := true,
          chmod := 0o644, file := some ⟨"d", "t.tmp"⟩, use_temp := true,
          temp_ext := ".tmp" } none
        ⟨["d"], [(⟨"d", "t.tmp"⟩, Entry.file [1] 0o600)]⟩
        ⟨none, none, none⟩).2.2.chmodAttempted = decide ((0o644 : Int) ≠ 0) ∧
    ∀ s1 s2 : SmartOpen,
      smartOpenInit ⟨"d", "f"⟩ ['w'] none true none ".tmp" 18 = PyResult.ok s1 →
      smartOpenInit ⟨"d", "f"⟩ ['w'] none true (some 7) ".tmp" 18 = PyResult.ok s2 →
      s1.chmod = derivedChmod 18 ∧ s2.chmod = 7 := by
  constructor
  · exact (smartOpen_chmod_skip_iff_zero
      { filename := ⟨"d", "f"⟩, mode := ['w'], delete_temp_on_error := true,
        chmod := 0o644, file := some ⟨"d", "t.tmp"⟩, use_temp := true,
        temp_ext := ".tmp" } ⟨"d", "t.tmp"⟩
      ⟨["d"], [(⟨"d", "t.tmp"⟩, Entry.file [1] 0o600)]⟩ ⟨none, none, none⟩
      ⟨"d", "f"⟩ ['w'] none true ".tmp" 18 7 _ _ rfl rfl rfl).1
  · intro s1 s2 h1 h2
    obtain ⟨_, ha, hb⟩ := smartOpen_chmod_skip_iff_zero
      { filename := ⟨"d", "f"⟩, mode := ['w'], delete_temp_on_error := true,
        chmod := 0o644, file := some ⟨"d", "t.tmp"⟩, use_temp := true,
        temp_ext := ".tmp" } ⟨"d", "t.tmp"⟩
      ⟨["d"], [(⟨"d", "t.tmp"⟩, Entry.file [1] 0o600)]⟩ ⟨none, none, none⟩
      ⟨"d", "f"⟩ ['w'] none true ".tmp" 18 7 s1 s2 rfl h1 h2
    exact ⟨ha, hb⟩

/-- Claim C10: on an error-free scope exit with the permission parameter
unset and a nonzero derived default, `os.chmod` is applied to the opened
file even when `use_temp` is false and nothing was written: merely opening
an existing file with the default mode `'r'` and exiting normally changes
that file's on-disk permission bits to the umask-derived default. -/
theorem smartOpen_read_success_chmods_destination
    (fs : FS) (p : Path) (c : List Nat) (q : Nat) (u : Nat)
    (ee : EnterEnv) (renF remF : Option Nat)
    (hx : fs.lookup p = some (Entry.file c q))
    (hnz : Nat.ldiff 0o666 u ≠ 0) :
    (runSmartOpen p ['r'] none true none ".tmp"
        ⟨u, ee, ⟨[], none⟩, ⟨none, renF, remF⟩⟩ fs).result = PyResult.ok () ∧
    (runSmartOpen p ['r'] none true none ".tmp"
        ⟨u, ee, ⟨[], none⟩, ⟨none, renF, remF⟩⟩ fs).fs.lookup p =
      some (Entry.file c (Nat.ldiff 0o666 u)) ∧
    (runSmartOpen p ['r'] none true none ".tmp"
        ⟨u, ee, ⟨[], none⟩, ⟨none, renF, remF⟩⟩ fs).trace.chmodAttempted = true := by
  have hch : derivedChmod u = ((Nat.ldiff 0o666 u : Nat) : Int) := rfl
  have hchnz : derivedChmod u ≠ 0 := by
    rw [hch]
    exact_mod_cast hnz
  have htn : (derivedChmod u).toNat = Nat.ldiff 0o666 u := by
    rw [hch, Int.toNat_ofNat]
  simp only [runSmartOpen, smartOpenInit, cannotUseTemp, smartOpenEnter,
    modeImpliesWrite, openFile, applyBody, smartOpenExit, osChmod]
  simp +decide [hx, hchnz, htn, FS.lookup_set_self]

/-- Witness for C10 at umask `0o022`. -/
theorem smartOpen_read_success_chmods_destination_witness :
    (runSmartOpen ⟨"d", "f"⟩ ['r'] none true none ".tmp"
        ⟨18, ⟨none, []⟩, ⟨[], none⟩, ⟨none, none, none⟩⟩
        ⟨["d"], [(⟨"d", "f"⟩, Entry.file [7] 0o600)]⟩).result = PyResult.ok () ∧
    (runSmartOpen ⟨"d", "f"⟩ ['r'] none true none ".tmp"
        ⟨18, ⟨none, []⟩, ⟨[], none⟩, ⟨none, none, none⟩⟩
        ⟨["d"], [(⟨"d", "f"⟩, Entry.file [7] 0o600)]⟩).fs.lookup ⟨"d", "f"⟩ =
      some (Entry.file [7] (Nat.ldiff 0o666 18)) ∧
    (runSmartOpen ⟨"d", "f"⟩ ['r'] none true none ".tmp"
        ⟨18, ⟨none, []⟩, ⟨[], none⟩, ⟨none, none, none⟩⟩
        ⟨["d"], [(⟨"d", "f"⟩, Entry.file [7] 0o600)]⟩).trace.chmodAttempted = true :=
  smartOpen_read_success_chmods_destination
    ⟨["d"], [(⟨"d", "f"⟩, Entry.file [7] 0o600)]⟩ ⟨"d", "f"⟩ [7] 0o600 18
    ⟨none, []⟩ none none (by decide)
    (fun hh => by
      have h1 : (Nat.ldiff 0o666 18).testBit 2 = true := by
        rw [Nat.testBit_ldiff, Nat.testBit_to_div_mod, Nat.testBit_to_div_mod]
        decide
      rw [hh] at h1
      simp at h1)

/-- Main invariant of the `atomic_symlink` creation loop: (1) if the loop
did not attempt a rename, the file system is unchanged; (2) if the loop
returned successfully, exactly one rename was attempted and the destination
holds the new symlink; (3) if the loop raised without attempting a rename,
the `tmp` variable (when set) names a path that does not exist. -/
theorem symLoop_main (src : String) (dst : Path) :
    ∀ (fuel : Nat) (st : LoopSt) (r : LoopRes) (st' : LoopSt),
      symLoop src dst fuel st = (r, st') →
      (st'.renameAttempts = st.renameAttempts → st'.fs = st.fs) ∧
      (r = LoopRes.returned →
        st'.renameAttempts = st.renameAttempts + 1 ∧
        st'.fs.lookup dst = some (Entry.symlink src)) ∧
      (∀ e, r = LoopRes.raised e → st'.renameAttempts = st.renameAttempts →
        ∀ t, st'.tmp = some t → st'.fs.existsPath t = false) := by
  intro fuel
  induction fuel with
  | zero =>
    intro st r st' h
    rw [symLoop] at h
    injection h with h1 h2
    subst h1
    subst h2
    refine ⟨fun _ => rfl, ?_, ?_⟩
    · intro hr; simp at hr
    · intro e hr; simp at hr
  | succ fuel ih =>
    intro st r st' h
    rw [symLoop] at h
    rcases hscan : mktempScan st.fs dst.dir st.names with _ | ⟨t, rest⟩
    · rw [hscan] at h
      dsimp only at h
      have hres := ih _ r st' h
      exact hres
    · rw [hscan] at h
      rcases houtc : popOutcome st.outcomes with ⟨oc, ocRest⟩
      rw [houtc] at h
      dsimp only at h
      rcases oc with _ | e0
      · -- os.symlink succeeded; rename follows
        rcases hrf : st.renameFail with _ | e1
        all_goals rw [show
          (LoopSt.mk (st.fs.set t (Entry.symlink src)) (some t) rest ocRest
            st.renameFail st.renameAttempts (st.iters + 1)).renameFail =
          st.renameFail from rfl, hrf] at h
        · dsimp only at h
          injection h with h1 h2
          subst h1
          subst h2
          refine ⟨fun hh => absurd hh (Nat.succ_ne_self _), fun _ => ⟨rfl, ?_⟩, ?_⟩
          · by_cases ht : t = dst
            · subst ht
              simp [FS.rename, FS.lookup_set_self]
            · simp [FS.rename, FS.lookup_set_self, ht]
          · intro e hr; simp at hr
        · dsimp only at h
          injection h with h1 h2
          subst h1
          subst h2
          refine ⟨fun hh => absurd hh (Nat.succ_ne_self _), ?_, ?_⟩
          · intro hr; simp at hr
          · intro e hr hh; exact absurd hh (Nat.succ_ne_self _)
      · -- os.symlink failed with errno e0
        dsimp only at h
        by_cases he : e0 = EEXIST
        · rw [if_pos he] at h
          have hres := ih _ r st' h
          exact hres
        · rw [if_neg he] at h
          injection h with h1 h2
          subst h1
          subst h2
          refine ⟨fun _ => rfl, ?_, fun e hr hra t0 ht0 => ?_⟩
          · intro hr; simp at hr
          -- the raising iteration had just drawn a fresh name from mktemp
          · obtain ht0' := Option.some.injEq .. ▸ ht0
            subst ht0'
            exact (mktempScan_spec st.fs dst.dir st.names _ rest hscan).2

theorem FS.lookup_entries_eq (fs1 fs : FS) (h : fs1.entries = fs.entries)
    (p : Path) : fs1.lookup p = fs.lookup p := by
  unfold FS.lookup
  rw [h]

/-- Claim C2: after a successful `atomic_symlink(src, dst)` call, `dst` is a
symbolic link pointing exactly at `src`, established by exactly one
`os.rename` of the temporary symlink onto `dst`; and in any run in which no
rename was attempted, the entry at `dst` is untouched. -/
theorem atomicSymlink_success_atomic (src : String) (dst : Path) (env : SymEnv)
    (fs : FS) :
    ((atomicSymlink src dst env fs).result = PyResult.ok () →
      (atomicSymlink src dst env fs).fs.lookup dst = some (Entry.symlink src) ∧
      (atomicSymlink src dst env fs).renameAttempts = 1) ∧
    ((atomicSymlink src dst env fs).renameAttempts = 0 →
      (atomicSymlink src dst env fs).fs.lookup dst = fs.lookup dst) := by
  simp only [atomicSymlink]
  split
  next e hmk =>
    exact ⟨fun hok => by simp at hok, fun _ => rfl⟩
  next fs1 hmk =>
    have hent : fs1.entries = fs.entries := by
      split at hmk
      · obtain h1 := PyResult.ok.injEq .. ▸ hmk
        rw [← h1]
      · split at hmk
        · obtain h1 := PyResult.ok.injEq .. ▸ hmk
          rw [← h1]
        · exact absurd hmk (by simp)
    rcases hl : symLoop src dst TMP_MAX
        ⟨fs1, none, env.names, env.outcomes, env.renameFail, 0, 0⟩ with ⟨r, st⟩
    obtain ⟨m1, m2, m3⟩ := symLoop_main src dst TMP_MAX _ r st hl
    rcases r with _ | _ | e
    · -- returned: the loop renamed and returned
      dsimp only
      obtain ⟨hra, hdst⟩ := m2 rfl
      refine ⟨fun _ => ⟨hdst, by rw [hra]⟩, fun h0 => ?_⟩
      rw [hra] at h0
      simp at h0
    · -- fellThrough: no rename ever happened
      dsimp only
      refine ⟨fun hok => by simp at hok, fun h0 => ?_⟩
      rw [m1 h0]
      exact FS.lookup_entries_eq fs1 fs hent dst
    · -- raised: cleanup path
      dsimp only
      rcases htmp : st.tmp with _ | t
      · dsimp only
        refine ⟨fun hok => by simp at hok, fun h0 => ?_⟩
        rw [m1 h0]
        exact FS.lookup_entries_eq fs1 fs hent dst
      · dsimp only
        by_cases hex : st.fs.existsPath t = true
        · rw [if_pos hex]
          rcases hrm : env.removeFail with _ | e2
          · dsimp only
            exact ⟨fun hok => by simp at hok,
              fun h0 => absurd (m3 e rfl h0 t htmp) (by simp [hex])⟩
          · dsimp only
            exact ⟨fun hok => by simp at hok,
              fun h0 => absurd (m3 e rfl h0 t htmp) (by simp [hex])⟩
        · rw [if_neg hex]
          refine ⟨fun hok => by simp at hok, fun h0 => ?_⟩
          rw [m1 h0]
          exact FS.lookup_entries_eq fs1 fs hent dst

/-- Witness for C2: a successful run installs the symlink with one rename;
a run whose only `os.symlink` attempt fails (errno 13) attempts no rename
and leaves the destination entry unchanged. -/
theorem atomicSymlink_success_atomic_witness :
    ((atomicSymlink "s" ⟨"d", "x"⟩ ⟨none, ["t"], [SymOutcome.ok], none, none⟩
        ⟨["d"], []⟩).fs.lookup ⟨"d", "x"⟩ = some (Entry.symlink "s") ∧
     (atomicSymlink "s" ⟨"d", "x"⟩ ⟨none, ["t"], [SymOutcome.ok], none, none⟩
        ⟨["d"], []⟩).renameAttempts = 1) ∧
    (atomicSymlink "s" ⟨"d", "x"⟩ ⟨none, ["t"], [SymOutcome.fail 13], none, none⟩
        ⟨["d"], []⟩).fs.lookup ⟨"d", "x"⟩ = (⟨["d"], []⟩ : FS).lookup ⟨"d", "x"⟩ :=
  ⟨(atomicSymlink_success_atomic "s" ⟨"d", "x"⟩
      ⟨none, ["t"], [SymOutcome.ok], none, none⟩ ⟨["d"], []⟩).1 (by decide),
   (atomicSymlink_success_atomic "s" ⟨"d", "x"⟩
      ⟨none, ["t"], [SymOutcome.fail 13], none, none⟩ ⟨["d"], []⟩).2 (by decide)⟩

/-- With an empty candidate stream every iteration of the creation loop
continues (mktemp keeps raising `FileExistsError`), so the loop runs through
all its fuel and falls out. -/
theorem symLoop_names_nil (src : String) (dst : Path) :
    ∀ (fuel : Nat) (st : LoopSt), st.names = [] →
      symLoop src dst fuel st =
        (LoopRes.fellThrough, { st with iters := st.iters + fuel }) := by
  intro fuel
  induction fuel with
  | zero =>
    intro st hn
    cases st
    simp [symLoop]
  | succ fuel ih =>
    intro st hn
    rw [symLoop, hn]
    dsimp only [mktempScan]
    rw [ih { st with names := [], iters := st.iters + 1 } rfl]
    cases st
    simp only at hn
    subst hn
    simp [Nat.add_assoc, Nat.add_comm 1 fuel]

/-- One whole-loop unrolling: if `mktemp` can never produce a usable name
(every candidate already exists, so the scan is empty), the loop falls
through with all `TMP_MAX` iterations spent. -/
theorem symLoop_scan_none (src : String) (dst : Path) :
    ∀ (fuel : Nat) (st : LoopSt),
      mktempScan st.fs dst.dir st.names = none →
      symLoop src dst (Nat.succ fuel) st =
        (LoopRes.fellThrough, { st with names := [], iters := st.iters + (fuel + 1) }) := by
  intro fuel st hscan
  rw [symLoop, hscan]
  rw [symLoop_names_nil src dst fuel { st with names := [], iters := st.iters + 1 } rfl]
  cases st
  simp [Nat.add_assoc, Nat.add_comm 1 fuel]

/-- Claim C5: in the creation loop of `atomic_symlink`, (1) a symlink
failure with errno `EEXIST` retries the next iteration with a freshly
generated name; (2) a symlink failure with any other errno aborts the loop
immediately, raising that error; (3) that error propagates out of
`atomic_symlink` (the fresh name was never created, so cleanup removes
nothing); (4) only when all `TMP_MAX = 10000` iterations are exhausted does
the call fail, with `IOError(EEXIST, 'No usable temporary file name
found')`, in which case exactly `TMP_MAX` iterations ran. -/
theorem atomicSymlink_retry_abort_exhaust (src : String) (dst : Path) :
    (∀ (fuel : Nat) (st : LoopSt) (t : Path) (rest : List String)
       (ocR : List SymOutcome),
       mktempScan st.fs dst.dir st.names = some (t, rest) →
       st.outcomes = SymOutcome.fail EEXIST :: ocR →
       symLoop src dst (Nat.succ fuel) st =
         symLoop src dst fuel
           { st with tmp := some t, names := rest, outcomes := ocR,
                     iters := st.iters + 1 }) ∧
    (∀ (fuel : Nat) (st : LoopSt) (t : Path) (rest : List String)
       (ocR : List SymOutcome) (e : Nat),
       mktempScan st.fs dst.dir st.names = some (t, rest) →
       st.outcomes = SymOutcome.fail e :: ocR → e ≠ EEXIST →
       symLoop src dst (Nat.succ fuel) st =
         (LoopRes.raised (PyExn.oserror e "symlink"),
          { st with tmp := some t, names := rest, outcomes := ocR,
                    iters := st.iters + 1 })) ∧
    (∀ (env : SymEnv) (fs : FS) (t : Path) (rest : List String) (e : Nat),
       fs.dirs.contains dst.dir = true →
       mktempScan fs dst.dir env.names = some (t, rest) →
       env.outcomes = [SymOutcome.fail e] → e ≠ EEXIST →
       (atomicSymlink src dst env fs).result =
         PyResult.exn (PyExn.oserror e "symlink")) ∧
    (∀ (env : SymEnv) (fs : FS),
       fs.dirs.contains dst.dir = true →
       mktempScan fs dst.dir env.names = none →
       (atomicSymlink src dst env fs).result =
         PyResult.exn (PyExn.oserror EEXIST "No usable temporary file name found") ∧
       (atomicSymlink src dst env fs).iters = TMP_MAX) := by
  have hstep2 : ∀ (fuel : Nat) (st : LoopSt) (t : Path) (rest : List String)
      (ocR : List SymOutcome) (e : Nat),
      mktempScan st.fs dst.dir st.names = some (t, rest) →
      st.outcomes = SymOutcome.fail e :: ocR → e ≠ EEXIST →
      symLoop src dst (Nat.succ fuel) st =
        (LoopRes.raised (PyExn.oserror e "symlink"),
         { st with tmp := some t, names := rest, outcomes := ocR,
                   iters := st.iters + 1 }) := by
    intro fuel st t rest ocR e hscan houtc he
    rw [symLoop, hscan, houtc]
    dsimp only [popOutcome]
    rw [if_neg he]
  refine ⟨?_, hstep2, ?_, ?_⟩
  · intro fuel st t rest ocR hscan houtc
    rw [symLoop, hscan, houtc]
    dsimp only [popOutcome]
    rw [if_pos rfl]
  · intro env fs t rest e hd hscan houtc he
    simp only [atomicSymlink]
    rw [if_pos hd]
    dsimp only
    have hrw := hstep2 9999 ⟨fs, none, env.names, env.outcomes, env.renameFail, 0, 0⟩
      t rest [] e hscan (by rw [houtc]) he
    rw [show symLoop src dst TMP_MAX
        ⟨fs, none, env.names, env.outcomes, env.renameFail, 0, 0⟩ =
      symLoop src dst (Nat.succ 9999)
        ⟨fs, none, env.names, env.outcomes, env.renameFail, 0, 0⟩ from rfl, hrw]
    dsimp only
    have hex := (mktempScan_spec fs dst.dir env.names t rest hscan).2
    simp [hex]
  · intro env fs hd hscan
    simp only [atomicSymlink]
    rw [if_pos hd]
    dsimp only
    have hrw := symLoop_scan_none src dst 9999
      ⟨fs, none, env.names, env.outcomes, env.renameFail, 0, 0⟩ hscan
    rw [show symLoop src dst TMP_MAX
        ⟨fs, none, env.names, env.outcomes, env.renameFail, 0, 0⟩ =
      symLoop src dst (Nat.succ 9999)
        ⟨fs, none, env.names, env.outcomes, env.renameFail, 0, 0⟩ from rfl, hrw]
    exact ⟨rfl, rfl⟩

/-- Witness for C5, one concrete instance per conjunct. -/
theorem atomicSymlink_retry_abort_exhaust_witness :
    (symLoop "s" ⟨"d", "x"⟩ (Nat.succ 0)
        ⟨⟨["d"], []⟩, none, ["t"], [SymOutcome.fail 17], none, 0, 0⟩ =
      symLoop "s" ⟨"d", "x"⟩ 0
        ⟨⟨["d"], []⟩, some ⟨"d", "t"⟩, [], [], none, 0, 1⟩) ∧
    (symLoop "s" ⟨"d", "x"⟩ (Nat.succ 0)
        ⟨⟨["d"], []⟩, none, ["t"], [SymOutcome.fail 13], none, 0, 0⟩ =
      (LoopRes.raised (PyExn.oserror 13 "symlink"),
       ⟨⟨["d"], []⟩, some ⟨"d", "t"⟩, [], [], none, 0, 1⟩)) ∧
    ((atomicSymlink "s" ⟨"d", "x"⟩ ⟨none, ["t"], [SymOutcome.fail 13], none, none⟩
        ⟨["d"], []⟩).result = PyResult.exn (PyExn.oserror 13 "symlink")) ∧
    ((atomicSymlink "s" ⟨"d", "x"⟩ ⟨none, [], [], none, none⟩
        ⟨["d"], []⟩).result =
      PyResult.exn (PyExn.oserror EEXIST "No usable temporary file name found") ∧
     (atomicSymlink "s" ⟨"d", "x"⟩ ⟨none, [], [], none, none⟩
        ⟨["d"], []⟩).iters = TMP_MAX) :=
  ⟨(atomicSymlink_retry_abort_exhaust "s" ⟨"d", "x"⟩).1 0
      ⟨⟨["d"], []⟩, none, ["t"], [SymOutcome.fail 17], none, 0, 0⟩
      ⟨"d", "t"⟩ [] [] (by decide) rfl,
   (atomicSymlink_retry_abort_exhaust "s" ⟨"d", "x"⟩).2.1 0
      ⟨⟨["d"], []⟩, none, ["t"], [SymOutcome.fail 13], none, 0, 0⟩
      ⟨"d", "t"⟩ [] [] 13 (by decide) rfl (by decide),
   (atomicSymlink_retry_abort_exhaust "s" ⟨"d", "x"⟩).2.2.1
      ⟨none, ["t"], [SymOutcome.fail 13], none, none⟩ ⟨["d"], []⟩
      ⟨"d", "t"⟩ [] 13 (by decide) (by decide) rfl (by decide),
   (atomicSymlink_retry_abort_exhaust "s" ⟨"d", "x"⟩).2.2.2
      ⟨none, [], [], none, none⟩ ⟨["d"], []⟩ (by decide) rfl⟩

/-- Claim C6 (counterexample to the claim as stated): the temporary symlink
is created, `os.rename` fails with errno 13, and the cleanup
`os.remove(tmp)` in the bare `except` clause itself fails with errno 16.
The `raise` statement after the failing `os.remove` is never reached, so the
caller observes the cleanup error (16), not the original error (13): the
cleanup failure masks the original error. -/
theorem atomicSymlink_cleanup_failure_masks_original :
    (atomicSymlink "s" ⟨"d", "x"⟩ ⟨none, ["t"], [SymOutcome.ok], some 13, some 16⟩
        ⟨["d"], []⟩).raisedInTry = some (PyExn.oserror 13 "rename") ∧
    (atomicSymlink "s" ⟨"d", "x"⟩ ⟨none, ["t"], [SymOutcome.ok], some 13, some 16⟩
        ⟨["d"], []⟩).result = PyResult.exn (PyExn.oserror 16 "remove") ∧
    PyExn.oserror 16 "remove" ≠ PyExn.oserror 13 "rename" := by
  decide

/-- Claim C6 (amended): for every exception raised inside the `try` block of
`atomic_symlink`, the just-created temporary symlink is removed if it still
exists and the original error reaches the caller — provided the cleanup
`os.remove` does not itself fail; if the cleanup delete fails, the cleanup
failure propagates in place of the original error (the original error is
masked, not re-raised). -/
theorem atomicSymlink_cleanup_behavior
    (src : String) (dst : Path) (env : SymEnv) (fs : FS) (e : PyExn)
    (hr : (atomicSymlink src dst env fs).raisedInTry = some e) :
    (env.removeFail = none →
      (atomicSymlink src dst env fs).result = PyResult.exn e ∧
      (∀ t, (atomicSymlink src dst env fs).tmp = some t →
        (atomicSymlink src dst env fs).fs.existsPath t = false)) ∧
    ((atomicSymlink src dst env fs).result = PyResult.exn e ∨
      ∃ e2, env.removeFail = some e2 ∧
        (atomicSymlink src dst env fs).result =
          PyResult.exn (PyExn.oserror e2 "remove")) := by
  revert hr
  simp only [atomicSymlink]
  split
  next e0 hmk =>
    intro hr
    obtain he := Option.some.injEq .. ▸ hr
    subst he
    exact ⟨fun _ => ⟨rfl, fun t ht => nomatch ht⟩, Or.inl rfl⟩
  next fs1 hmk =>
    rcases hl : symLoop src dst TMP_MAX
        ⟨fs1, none, env.names, env.outcomes, env.renameFail, 0, 0⟩ with ⟨r, st⟩
    rcases r with _ | _ | e1
    · dsimp only
      intro hr
      exact absurd hr (by simp)
    · dsimp only
      intro hr
      exact absurd hr (by simp)
    · dsimp only
      rcases htmp : st.tmp with _ | t
      · dsimp only
        intro hr
        obtain he := Option.some.injEq .. ▸ hr
        subst he
        exact ⟨fun _ => ⟨rfl, fun t ht => nomatch ht⟩, Or.inl rfl⟩
      · dsimp only
        by_cases hex : st.fs.existsPath t = true
        · rw [if_pos hex]
          rcases hrm : env.removeFail with _ | e2
          · dsimp only
            intro hr
            obtain he := Option.some.injEq .. ▸ hr
            subst he
            refine ⟨fun _ => ⟨rfl, fun t0 ht0 => ?_⟩, Or.inl rfl⟩
            obtain ht0' := Option.some.injEq .. ▸ ht0
            subst ht0'
            simp [FS.existsPath, FS.lookup_remove_self]
          · dsimp only
            intro hr
            obtain he := Option.some.injEq .. ▸ hr
            subst he
            exact ⟨fun hn => absurd hn (by simp), Or.inr ⟨e2, rfl, rfl⟩⟩
        · rw [if_neg hex]
          dsimp only
          intro hr
          obtain he := Option.some.injEq .. ▸ hr
          subst he
          refine ⟨fun _ => ⟨rfl, fun t0 ht0 => ?_⟩, Or.inl rfl⟩
          obtain ht0' := Option.some.injEq .. ▸ ht0
          subst ht0'
          simpa using hex

/-- Witness for the amended C6: rename fails with errno 13, the cleanup
remove succeeds, and the caller observes the original error with the
temporary gone. -/
theorem atomicSymlink_cleanup_behavior_witness :
    ((⟨none, ["t"], [SymOutcome.ok], some 13, none⟩ : SymEnv).removeFail = none →
      (atomicSymlink "s" ⟨"d", "x"⟩ ⟨none, ["t"], [SymOutcome.ok], some 13, none⟩
          ⟨["d"], []⟩).result = PyResult.exn (PyExn.oserror 13 "rename") ∧
      (∀ t, (atomicSymlink "s" ⟨"d", "x"⟩
          ⟨none, ["t"], [SymOutcome.ok], some 13, none⟩ ⟨["d"], []⟩).tmp = some t →
        (atomicSymlink "s" ⟨"d", "x"⟩
          ⟨none, ["t"], [SymOutcome.ok], some 13, none⟩ ⟨["d"], []⟩).fs.existsPath t =
          false)) ∧
    ((atomicSymlink "s" ⟨"d", "x"⟩ ⟨none, ["t"], [SymOutcome.ok], some 13, none⟩
        ⟨["d"], []⟩).result = PyResult.exn (PyExn.oserror 13 "rename") ∨
      ∃ e2, (⟨none, ["t"], [SymOutcome.ok], some 13, none⟩ : SymEnv).removeFail =
          some e2 ∧
        (atomicSymlink "s" ⟨"d", "x"⟩ ⟨none, ["t"], [SymOutcome.ok], some 13, none⟩
          ⟨["d"], []⟩).result = PyResult.exn (PyExn.oserror e2 "remove")) :=
  atomicSymlink_cleanup_behavior "s" ⟨"d", "x"⟩
    ⟨none, ["t"], [SymOutcome.ok], some 13, none⟩ ⟨["d"], []⟩
    (PyExn.oserror 13 "rename") (by decide)

/-- Loop invariant for the temporary-name choice: every name bound to `tmp`
lies in the destination's directory, and — provided the destination existed
when the loop started — `tmp` is never the destination itself and the
destination keeps existing. -/
theorem symLoop_tmp_inv (src : String) (dst : Path) :
    ∀ (fuel : Nat) (st : LoopSt) (r : LoopRes) (st' : LoopSt),
      symLoop src dst fuel st = (r, st') →
      (∀ t0, st.tmp = some t0 → t0.dir = dst.dir) →
      ((∀ t, st'.tmp = some t → t.dir = dst.dir) ∧
       (st.fs.existsPath dst = true →
         (∀ t0, st.tmp = some t0 → t0 ≠ dst) →
         (∀ t, st'.tmp = some t → t ≠ dst) ∧ st'.fs.existsPath dst = true)) := by
  intro fuel
  induction fuel with
  | zero =>
    intro st r st' h hdir
    rw [symLoop] at h
    injection h with h1 h2
    subst h2
    exact ⟨hdir, fun hex hne => ⟨hne, hex⟩⟩
  | succ fuel ih =>
    intro st r st' h hdir
    rw [symLoop] at h
    rcases hscan : mktempScan st.fs dst.dir st.names with _ | ⟨t, rest⟩
    · rw [hscan] at h
      dsimp only at h
      have hres := ih _ r st' h hdir
      exact hres
    · rw [hscan] at h
      obtain ⟨htdir, htfree⟩ := mktempScan_spec st.fs dst.dir st.names t rest hscan
      rcases houtc : popOutcome st.outcomes with ⟨oc, ocRest⟩
      rw [houtc] at h
      dsimp only at h
      rcases oc with _ | e0
      · -- symlink succeeded
        rcases hrf : st.renameFail with _ | e1
        all_goals rw [show
          (LoopSt.mk (st.fs.set t (Entry.symlink src)) (some t) rest ocRest
            st.renameFail st.renameAttempts (st.iters + 1)).renameFail =
          st.renameFail from rfl, hrf] at h
        · dsimp only at h
          injection h with h1 h2
          subst h2
          refine ⟨?_, fun hex hne => ⟨?_, ?_⟩⟩
          · intro t1 ht1
            obtain ht1' := Option.some.injEq .. ▸ ht1
            subst ht1'
            exact htdir
          · intro t1 ht1
            obtain ht1' := Option.some.injEq .. ▸ ht1
            subst ht1'
            intro hh
            rw [hh, hex] at htfree
            exact Bool.noConfusion htfree
          · have htne : t ≠ dst := by
              intro hh
              rw [hh, hex] at htfree
              exact Bool.noConfusion htfree
            simp [FS.rename, FS.lookup_set_self, htne, FS.existsPath_set_self]
        · dsimp only at h
          injection h with h1 h2
          subst h2
          refine ⟨?_, fun hex hne => ⟨?_, ?_⟩⟩
          · intro t1 ht1
            obtain ht1' := Option.some.injEq .. ▸ ht1
            subst ht1'
            exact htdir
          · intro t1 ht1
            obtain ht1' := Option.some.injEq .. ▸ ht1
            subst ht1'
            intro hh
            rw [hh, hex] at htfree
            exact Bool.noConfusion htfree
          · have htne : t ≠ dst := by
              intro hh
              rw [hh, hex] at htfree
              exact Bool.noConfusion htfree
            rw [FS.existsPath_set_ne _ _ _ _ (Ne.symm htne)]
            exact hex
      · -- symlink failed
        dsimp only at h
        have htne0 : st.fs.existsPath dst = true → t ≠ dst := by
          intro hex hh
          rw [hh, hex] at htfree
          exact Bool.noConfusion htfree
        by_cases he : e0 = EEXIST
        · rw [if_pos he] at h
          have hres := ih _ r st' h (by
            intro t1 ht1
            obtain ht1' := Option.some.injEq .. ▸ ht1
            subst ht1'
            exact htdir)
          obtain ⟨c1, c2⟩ := hres
          refine ⟨c1, fun hex hne => c2 hex ?_⟩
          intro t1 ht1
          obtain ht1' := Option.some.injEq .. ▸ ht1
          subst ht1'
          exact htne0 hex
        · rw [if_neg he] at h
          injection h with h1 h2
          subst h2
          refine ⟨?_, fun hex hne => ⟨?_, hex⟩⟩
          · intro t1 ht1
            obtain ht1' := Option.some.injEq .. ▸ ht1
            subst ht1'
            exact htdir
          · intro t1 ht1
            obtain ht1' := Option.some.injEq .. ▸ ht1
            subst ht1'
            exact htne0 hex

/-- Claim C7 (counterexample to the claim as stated): when the destination
does not yet exist and the random name sequence happens to produce exactly
the destination's base name, `tempfile.mktemp` returns the destination path
itself (its existence check passes, since nothing exists there), the
symlink is created directly at the destination and the final rename is a
same-path no-op.  The run succeeds, yet the temporary link path EQUALS
`destination_path`, refuting "the temporary link path is never equal to
destination_path". -/
theorem atomicSymlink_temp_name_can_equal_destination :
    (atomicSymlink "s" ⟨"d", "tmpx"⟩ ⟨none, ["tmpx"], [SymOutcome.ok], none, none⟩
        ⟨["d"], []⟩).result = PyResult.ok () ∧
    (atomicSymlink "s" ⟨"d", "tmpx"⟩ ⟨none, ["tmpx"], [SymOutcome.ok], none, none⟩
        ⟨["d"], []⟩).tmp = some ⟨"d", "tmpx"⟩ ∧
    (⟨["d"], []⟩ : FS).existsPath ⟨"d", "tmpx"⟩ = false := by
  decide

/-- Claim C7 (amended): every temporary entry is staged in the destination's
directory — for `atomic_symlink`, every name bound to `tmp` lies in
`destination_path`'s directory and differs from `destination_path` whenever
the destination existed when the call began; for `smart_open` with
`use_temp`, the handle's on-disk name lies in `target_path`'s parent
directory, carries the temp suffix, and differs from `target_path` whenever
the target exists.  (When the destination/target does not exist, the code
checks the generated name only against existing entries, so it can
coincide with the destination.) -/
theorem staging_in_destination_directory :
    (∀ (src : String) (dst : Path) (env : SymEnv) (fs : FS) (t : Path),
       (atomicSymlink src dst env fs).tmp = some t →
       t.dir = dst.dir ∧ (fs.existsPath dst = true → t ≠ dst)) ∧
    (∀ (s : SmartOpen) (fs : FS) (ee : EnterEnv) (u : Nat) (s' : SmartOpen)
       (fs' : FS) (h : Path),
       s.use_temp = true →
       smartOpenEnter s fs ee u = (PyResult.ok s', fs') →
       s'.file = some h →
       h.dir = s.filename.dir ∧
       (∃ n, n ∈ ee.ntfNames ∧ h.base = n ++ s.temp_ext) ∧
       (fs.existsPath s.filename = true → h ≠ s.filename)) := by
  constructor
  · intro src dst env fs t
    simp only [atomicSymlink]
    split
    next e hmk =>
      intro ht
      exact absurd ht (by simp)
    next fs1 hmk =>
      have hent : fs1.entries = fs.entries := by
        split at hmk
        · obtain h1 := PyResult.ok.injEq .. ▸ hmk
          rw [← h1]
        · split at hmk
          · obtain h1 := PyResult.ok.injEq .. ▸ hmk
            rw [← h1]
          · exact absurd hmk (by simp)
      have hexq : fs1.existsPath dst = fs.existsPath dst := by
        unfold FS.existsPath
        rw [FS.lookup_entries_eq fs1 fs hent]
      rcases hl : symLoop src dst TMP_MAX
          ⟨fs1, none, env.names, env.outcomes, env.renameFail, 0, 0⟩ with ⟨r, st⟩
      obtain ⟨i1, i2⟩ := symLoop_tmp_inv src dst TMP_MAX _ r st hl
        (fun t0 ht0 => nomatch ht0)
      have hmain : ∀ t0, st.tmp = some t0 →
          t0.dir = dst.dir ∧ (fs.existsPath dst = true → t0 ≠ dst) := by
        intro t0 ht0
        refine ⟨i1 t0 ht0, fun hex => ?_⟩
        obtain ⟨c1, _⟩ := i2 (by rw [hexq]; exact hex) (fun t1 ht1 => nomatch ht1)
        exact c1 t0 ht0
      rcases r with _ | _ | e1
      · dsimp only
        exact hmain t
      · dsimp only
        exact hmain t
      · dsimp only
        rcases htmp : st.tmp with _ | t1
        · dsimp only
          intro ht
          exact absurd ht (by simp)
        · dsimp only
          by_cases hex1 : st.fs.existsPath t1 = true

          · rw [if_pos hex1]
            rcases env.removeFail with _ | e2
            · dsimp only
              intro ht
              obtain ht' := Option.some.injEq .. ▸ ht
              subst ht'
              exact hmain _ htmp
            · dsimp only
              intro ht
              obtain ht' := Option.some.injEq .. ▸ ht
              subst ht'
              exact hmain _ htmp
          · rw [if_neg hex1]
            dsimp only
            intro ht
            obtain ht' := Option.some.injEq .. ▸ ht
            subst ht'
            exact hmain _ htmp
  · intro s fs ee u s' fs' h huse henter hfile
    simp only [smartOpenEnter] at henter
    split at henter
    next e hmk =>
      simp at henter
    next fs1 hmk =>
      have hent : fs1.entries = fs.entries := by
        split at hmk
        · split at hmk
          · obtain h1 := PyResult.ok.injEq .. ▸ hmk
            rw [← h1]
          · exact absurd hmk (by simp)
        · obtain h1 := PyResult.ok.injEq .. ▸ hmk
          rw [← h1]
      rw [huse] at henter
      simp only [if_true] at henter
      rcases hscan : ntfScan fs1 s.filename.dir s.temp_ext ee.ntfNames with _ | t
      · rw [hscan] at henter
        simp at henter
      · rw [hscan] at henter
        obtain ⟨hs', hfs'⟩ := Prod.mk.injEq .. ▸ henter
        obtain hs'' := PyResult.ok.injEq .. ▸ hs'
        subst hs''
        obtain hh := Option.some.injEq .. ▸ hfile
        subst hh
        obtain ⟨hdir, hbase, hfree⟩ :=
          ntfScan_spec fs1 s.filename.dir s.temp_ext ee.ntfNames _ hscan
        refine ⟨hdir, hbase, fun hex hhe => ?_⟩
        rw [hhe] at hfree
        have : fs1.existsPath s.filename = fs.existsPath s.filename := by
          unfold FS.existsPath
          rw [FS.lookup_entries_eq fs1 fs hent]
        rw [this, hex] at hfree
        exact Bool.noConfusion hfree

/-- Witness for the amended C7: a successful symlink run over an existing
destination stages in the right directory under a distinct name, and a
`smart_open` scope entry with `use_temp` stages a suffixed distinct name in
the target's directory. -/
theorem staging_in_destination_directory_witness :
    ((atomicSymlink "s" ⟨"d", "x"⟩ ⟨none, ["t"], [SymOutcome.ok], none, none⟩
        ⟨["d"], [(⟨"d", "x"⟩, Entry.file [] 0o644)]⟩).tmp = some ⟨"d", "t"⟩ ∧
     (⟨"d", "t"⟩ : Path).dir = "d" ∧
     ((⟨["d"], [(⟨"d", "x"⟩, Entry.file [] 0o644)]⟩ : FS).existsPath ⟨"d", "x"⟩ = true →
       (⟨"d", "t"⟩ : Path) ≠ ⟨"d", "x"⟩)) ∧
    ∀ (s' : SmartOpen) (fs' : FS),
      smartOpenEnter
        { filename := ⟨"d", "f"⟩, mode := ['w'], delete_temp_on_error := true,
          chmod := 1, file := none, use_temp := true, temp_ext := ".tmp" }
        ⟨["d"], [(⟨"d", "f"⟩, Entry.file [] 0o644)]⟩ ⟨none, ["t"]⟩ 18 =
        (PyResult.ok s', fs') →
      ∀ h : Path, s'.file = some h →
        h.dir = "d" ∧ (∃ n, n ∈ ["t"] ∧ h.base = n ++ ".tmp") ∧
        ((⟨["d"], [(⟨"d", "f"⟩, Entry.file [] 0o644)]⟩ : FS).existsPath ⟨"d", "f"⟩ = true →
          h ≠ ⟨"d", "f"⟩) := by
  constructor
  · have ht : (atomicSymlink "s" ⟨"d", "x"⟩ ⟨none, ["t"], [SymOutcome.ok], none, none⟩
        ⟨["d"], [(⟨"d", "x"⟩, Entry.file [] 0o644)]⟩).tmp = some ⟨"d", "t"⟩ := by decide
    obtain ⟨c1, c2⟩ := staging_in_destination_directory.1 "s" ⟨"d", "x"⟩
      ⟨none, ["t"], [SymOutcome.ok], none, none⟩
      ⟨["d"], [(⟨"d", "x"⟩, Entry.file [] 0o644)]⟩ ⟨"d", "t"⟩ ht
    exact ⟨ht, c1, c2⟩
  · intro s' fs' henter h hfile
    exact staging_in_destination_directory.2
      { filename := ⟨"d", "f"⟩, mode := ['w'], delete_temp_on_error := true,
        chmod := 1, file := none, use_temp := true, temp_ext := ".tmp" }
      ⟨["d"], [(⟨"d", "f"⟩, Entry.file [] 0o644)]⟩ ⟨none, ["t"]⟩ 18 s' fs' h
      rfl henter hfile

end AtomicCreate
